import Mathlib

/-!
Shallow embedding of the webdnn graph-transpiler IR slice:
the Axis/Order algebra, `Variable` with `shape_dict` and `change_order`,
and the spatial operators `Pooling2D` (from
src/graph_transpiler/webdnn/graph/operators/pooling_2d.py) and
`Deconvolution2D` (modelled from the spec; only its test is in the sources).

Machine integers are modelled as `Int`; Python floor division `//` and
modulo `%` agree with Lean `Int` division and modulo whenever the divisor
is positive, which is the only regime the claims are about.  Fallible
Python code (KeyError on a missing axis, ZeroDivisionError, the
AxisSetMismatchError of `change_order`) is modelled with `Except String`.
-/

/-- Symbolic axis labels (webdnn `Axis`): batch, height, width, channel. -/
inductive Axis where
  | N
  | H
  | W
  | C
deriving DecidableEq, Fintype

/-- A tensor variable: a physical shape together with the order labelling
each physical dimension with a logical axis (webdnn `Variable`). -/
structure Variable where
  shape : List Int
  order : List Axis
deriving DecidableEq

/-- Modelled from the spec: `Variable.shape_dict` produces the mapping
logical axis to size, a pure function of the current shape and order
(webdnn `variable.py` is not under src/).  Lookup of an absent axis is
`none` (Python KeyError). -/
def Variable.shape_dict (v : Variable) (a : Axis) : Option Int :=
  (v.order.zip v.shape).lookup a

/-- Set equality of two axis sequences, the precondition of `change_order`. -/
def sameAxisSet (o1 o2 : List Axis) : Bool :=
  decide (∀ a : Axis, a ∈ o1 ↔ a ∈ o2)

/-- Modelled from the spec: `change_order(new_order)` re-derives the
physical shape array by looking up, for each axis of the new order, its
size via the old `shape_dict`, and fails with AxisSetMismatchError when
the axis sets differ (webdnn `variable.py` is not under src/). -/
def Variable.change_order (v : Variable) (newOrder : List Axis) : Except String Variable :=
  if sameAxisSet v.order newOrder then
    .ok ⟨newOrder.map (fun a => (v.shape_dict a).getD 0), newOrder⟩
  else
    .error "AxisSetMismatchError"

def OrderNHWC : List Axis := [.N, .H, .W, .C]
def OrderHWNC : List Axis := [.H, .W, .N, .C]
def OrderHWCN : List Axis := [.H, .W, .C, .N]
def OrderNCHW : List Axis := [.N, .C, .H, .W]
def OrderCNHW : List Axis := [.C, .N, .H, .W]
def OrderCHWN : List Axis := [.C, .H, .W, .N]

/-- An int-or-tuple constructor argument (webdnn `IntOrTuple`). -/
inductive IntOrTuple where
  | int : Int → IntOrTuple
  | pair : Int → Int → IntOrTuple

/-- webdnn `util.to_tuple`: normalize an int-or-tuple argument to a 2-tuple. -/
def to_tuple : IntOrTuple → Int × Int
  | .int v => (v, v)
  | .pair a b => (a, b)

/-- The parameters of `Pooling2D`, as stored by `Pooling2D.__init__`
(`parameters["ksize"]`, `parameters["stride"]`, `parameters["padding"]`). -/
structure Pooling2D where
  ksize : Int × Int
  stride : Int × Int
  padding : Int × Int
deriving DecidableEq

def Pooling2D.KH (op : Pooling2D) : Int := op.ksize.1
def Pooling2D.KW (op : Pooling2D) : Int := op.ksize.2
def Pooling2D.SH (op : Pooling2D) : Int := op.stride.1
def Pooling2D.SW (op : Pooling2D) : Int := op.stride.2
def Pooling2D.PH (op : Pooling2D) : Int := op.padding.1
def Pooling2D.PW (op : Pooling2D) : Int := op.padding.2

/-- `Pooling2D.__init__`: stores the three parameters normalized by
`to_tuple`.  The body contains no validation and no failure path
(`super().__init__(name)` receives only the name; `to_tuple` is the shared
normalizer for all three parameters), so the result is always `ok`. -/
def Pooling2D.init (ksize stride padding : IntOrTuple) : Except String Pooling2D :=
  .ok ⟨to_tuple ksize, to_tuple stride, to_tuple padding⟩

/-- The observable outcome of `Pooling2D.exec`: the attached output `y`,
whether the edge-ignored warning was emitted, and the list of axes that
received a `Tensorwise` attribute scoped to them. -/
structure ExecResult where
  y : Variable
  warned : Bool
  tensorwiseAxes : List Axis
deriving DecidableEq

/-- `Pooling2D.exec` (pooling_2d.py lines 43-69): looks up N, H, W, C in
the input shape_dict (in that order), computes
`H2 = (H + 2*PH + SH - KH - 1) // SH + 1` and likewise `W2`, warns when
`(H + 2*PH - KH) % SH != 0` or `(W + 2*PW - KW) % SW != 0`, builds the
output in `OrderNHWC`, re-orders it to the input order, and attaches a
`Tensorwise` attribute for every input axis other than H and W. -/
def Pooling2D.exec (op : Pooling2D) (x : Variable) : Except String ExecResult :=
  match x.shape_dict .N with
  | none => .error "KeyError: Axis.N"
  | some n =>
    match x.shape_dict .H with
    | none => .error "KeyError: Axis.H"
    | some h =>
      if op.SH = 0 then .error "ZeroDivisionError" else
      let H2 := (h + 2 * op.PH + op.SH - op.KH - 1) / op.SH + 1
      match x.shape_dict .W with
      | none => .error "KeyError: Axis.W"
      | some w =>
        if op.SW = 0 then .error "ZeroDivisionError" else
        let W2 := (w + 2 * op.PW + op.SW - op.KW - 1) / op.SW + 1
        match x.shape_dict .C with
        | none => .error "KeyError: Axis.C"
        | some c =>
          let warned := decide ((h + 2 * op.PH - op.KH) % op.SH ≠ 0) ||
                        decide ((w + 2 * op.PW - op.KW) % op.SW ≠ 0)
          match (Variable.mk [n, H2, W2, c] OrderNHWC).change_order x.order with
          | .error e => .error e
          | .ok y => .ok ⟨y, warned, x.order.filter (fun a => !(a == Axis.H || a == Axis.W))⟩

/-- Modelled from the spec: `Deconvolution2D` is not under src/ (only its
test is).  Same parameterization as `Pooling2D`; the spec gives the inverse
arithmetic `out = (in - 1) * stride - 2 * pad + kernel` per spatial
dimension, batch size passed through from the data input `x`, output
channel count taken from the output-channel axis of the weight tensor `w`
(axis N of the canonical C-H-W-N weight order), the output built in
canonical NHWC order and then re-ordered to the order of `x`. -/
structure Deconvolution2D where
  ksize : Int × Int
  stride : Int × Int
  padding : Int × Int

/-- Modelled from the spec: shape inference of `Deconvolution2D` applied to
a data tensor `x` and a weight tensor `w`. -/
def Deconvolution2D.exec (op : Deconvolution2D) (x w : Variable) : Except String Variable :=
  match x.shape_dict .N, x.shape_dict .H, x.shape_dict .W, w.shape_dict .N with
  | some n, some h1, some w1, some c2 =>
    let H2 := (h1 - 1) * op.stride.1 - 2 * op.padding.1 + op.ksize.1
    let W2 := (w1 - 1) * op.stride.2 - 2 * op.padding.2 + op.ksize.2
    (Variable.mk [n, H2, W2, c2] OrderNHWC).change_order x.order
  | _, _, _, _ => .error "KeyError"

/-- The six orders the deconvolution test iterates over. -/
def orders6 : List (List Axis) :=
  [OrderNHWC, OrderHWNC, OrderHWCN, OrderNCHW, OrderCNHW, OrderCHWN]

/-- One scenario of the deconvolution test
(`deconvolution2d_test.py::main`): for every pair of the six orders,
build `x` logically as N=n, H=h1, W=w1, C=c1 and `w` logically as
C=c1, H=kh, W=kw, N=c2, run `exec`, and check that the output order equals
the order of `x` and that every logical output size matches the expected
shape dict. -/
def deconvScenarioOK (k : Int × Int) (s p n h1 w1 c1 c2 eN eH eW eC : Int) : Bool :=
  orders6.all fun ox => orders6.all fun ow =>
    match (Variable.mk [n, h1, w1, c1] OrderNHWC).change_order ox with
    | .error _ => false
    | .ok x =>
      match (Variable.mk [c1, k.1, k.2, c2] OrderCHWN).change_order ow with
      | .error _ => false
      | .ok w =>
        match (Deconvolution2D.mk k (s, s) (p, p)).exec x w with
        | .error _ => false
        | .ok y =>
          y.order == x.order &&
          y.shape_dict .N == some eN && y.shape_dict .H == some eH &&
          y.shape_dict .W == some eW && y.shape_dict .C == some eC

/-! ### Lookup lemmas for `shape_dict` over zipped order/shape lists -/

theorem lookup_zip_mem {l1 : List Axis} {l2 : List Int} {a : Axis} {b : Int}
    (h : (l1.zip l2).lookup a = some b) : a ∈ l1 := by
  induction l1 generalizing l2 with
  | nil => simp [List.lookup] at h
  | cons x xs ih =>
    cases l2 with
    | nil => simp [List.lookup] at h
    | cons y ys =>
      rw [List.zip_cons_cons, List.lookup_cons] at h
      by_cases hax : a == x
      · exact (eq_of_beq hax) ▸ List.mem_cons_self x xs
      · rw [Bool.not_eq_true] at hax
        rw [hax] at h
        exact List.mem_cons_of_mem x (ih h)

theorem lookup_zip_isSome {l1 : List Axis} {l2 : List Int}
    (hlen : l1.length = l2.length) {a : Axis} (ha : a ∈ l1) :
    ∃ b, (l1.zip l2).lookup a = some b := by
  induction l1 generalizing l2 with
  | nil => simp at ha
  | cons x xs ih =>
    cases l2 with
    | nil => simp at hlen
    | cons y ys =>
      rw [List.zip_cons_cons, List.lookup_cons]
      by_cases hax : a == x
      · exact ⟨y, by rw [hax]⟩
      · rw [Bool.not_eq_true] at hax
        rw [hax]
        have : a ∈ xs := by
          rcases List.mem_cons.mp ha with h | h
          · subst h; simp at hax
          · exact h
        exact ih (by simpa using hlen) this

theorem lookup_zip_map {l : List Axis} (g : Axis → Int) {a : Axis} (ha : a ∈ l) :
    (l.zip (l.map g)).lookup a = some (g a) := by
  induction l with
  | nil => simp at ha
  | cons x xs ih =>
    rw [List.map_cons, List.zip_cons_cons, List.lookup_cons]
    by_cases hax : a == x
    · rw [hax, eq_of_beq hax]
    · rw [Bool.not_eq_true] at hax
      rw [hax]
      rcases List.mem_cons.mp ha with h | h
      · subst h; simp at hax
      · exact ih h

theorem map_lookup_zip_self {l : List Axis} {s : List Int}
    (hnd : l.Nodup) (hlen : l.length = s.length) :
    l.map (fun a => ((l.zip s).lookup a).getD 0) = s := by
  induction l generalizing s with
  | nil =>
    have hs : s = [] := by simpa using hlen.symm
    subst hs
    rfl
  | cons x xs ih =>
    cases s with
    | nil => simp at hlen
    | cons y ys =>
      rw [List.zip_cons_cons, List.map_cons]
      have hx : (((x, y) :: xs.zip ys).lookup x).getD 0 = y := by
        rw [List.lookup_cons, beq_self_eq_true]
        rfl
      rw [hx]
      have hxs : xs.map (fun a => (((x, y) :: xs.zip ys).lookup a).getD 0)
          = xs.map (fun a => ((xs.zip ys).lookup a).getD 0) := by
        apply List.map_congr_left
        intro a hamem
        have hax : (a == x) = false := by
          have : a ≠ x := fun h => (List.nodup_cons.mp hnd).1 (h ▸ hamem)
          simpa using this
        rw [List.lookup_cons, hax]
      rw [hxs, ih (List.nodup_cons.mp hnd).2 (by simpa using hlen)]

/-! ### Axis-set lemmas -/

theorem sameAxisSet_iff {o1 o2 : List Axis} :
    sameAxisSet o1 o2 = true ↔ ∀ a : Axis, a ∈ o1 ↔ a ∈ o2 := by
  simp [sameAxisSet]

theorem sameAxisSet_symm {o1 o2 : List Axis} (h : sameAxisSet o1 o2 = true) :
    sameAxisSet o2 o1 = true := by
  rw [sameAxisSet_iff] at h ⊢
  exact fun a => (h a).symm

theorem sameAxisSet_NHWC {o : List Axis} (hN : Axis.N ∈ o) (hH : Axis.H ∈ o)
    (hW : Axis.W ∈ o) (hC : Axis.C ∈ o) : sameAxisSet OrderNHWC o = true := by
  rw [sameAxisSet_iff]
  intro a
  constructor
  · intro _
    cases a
    · exact hN
    · exact hH
    · exact hW
    · exact hC
  · intro _
    cases a <;> simp [OrderNHWC]

/-! ### The successful run of `Pooling2D.exec`, fully characterized -/

theorem Pooling2D.exec_ok {op : Pooling2D} {x : Variable} {n h w c : Int}
    (hN : x.shape_dict .N = some n) (hH : x.shape_dict .H = some h)
    (hW : x.shape_dict .W = some w) (hC : x.shape_dict .C = some c)
    (hSH : op.SH ≠ 0) (hSW : op.SW ≠ 0) :
    op.exec x = .ok
      ⟨⟨x.order.map (fun a =>
          ((Variable.mk [n, (h + 2 * op.PH + op.SH - op.KH - 1) / op.SH + 1,
                         (w + 2 * op.PW + op.SW - op.KW - 1) / op.SW + 1, c]
              OrderNHWC).shape_dict a).getD 0),
        x.order⟩,
       decide ((h + 2 * op.PH - op.KH) % op.SH ≠ 0) ||
         decide ((w + 2 * op.PW - op.KW) % op.SW ≠ 0),
       x.order.filter (fun a => !(a == Axis.H || a == Axis.W))⟩ := by
  have hset : sameAxisSet OrderNHWC x.order = true :=
    sameAxisSet_NHWC (lookup_zip_mem hN) (lookup_zip_mem hH) (lookup_zip_mem hW)
      (lookup_zip_mem hC)
  simp only [Pooling2D.exec, hN, hH, hW, hC, Variable.change_order, hset,
    if_neg hSH, if_neg hSW, if_true]

theorem shape_dict_of_map {l : List Axis} (g : Axis → Int) {a : Axis} (ha : a ∈ l) :
    (Variable.mk (l.map g) l).shape_dict a = some (g a) :=
  lookup_zip_map g ha

/-! ### Claim theorems -/

/-- C1, counterexample: with H = W = 5, kernel 2, stride 2, padding 0 the
code computes output height 3 (the code adds the stride:
`(H + 2*P + S - K - 1) // S + 1`), while the formula claimed in the spec,
`floor((H + 2*P - S - K - 1)/S) + 1`, gives 1, and the allegedly
equivalent `floor((H + 2*P - K)/S) + 1` gives 2. -/
theorem pooling_out_height_formula_cex :
    ((Pooling2D.mk (2, 2) (2, 2) (0, 0)).exec ⟨[1, 5, 5, 1], OrderNHWC⟩).map
        (fun r => r.y.shape_dict Axis.H) = .ok (some 3)
    ∧ ((5 + 2 * 0 - 2 - 2 - 1 : Int) / 2 + 1 = 1)
    ∧ ((5 + 2 * 0 - 2 : Int) / 2 + 1 = 2) :=
  ⟨rfl, rfl, rfl⟩

/-- C1, amended: for an input containing axes N, H, W, C and positive
strides, the output height computed by `Pooling2D.exec` equals
`floor((H + 2*P + S - K - 1)/S) + 1` (the stride is added, not
subtracted, so for positive stride this is `ceil((H + 2*P - K)/S) + 1`,
not `floor((H + 2*P - K)/S) + 1`); the same formula with the width
parameters applies independently to the width dimension. -/
theorem pooling_out_spatial_size (op : Pooling2D) (x : Variable) (n h w c : Int)
    (hN : x.shape_dict .N = some n) (hH : x.shape_dict .H = some h)
    (hW : x.shape_dict .W = some w) (hC : x.shape_dict .C = some c)
    (hSH : 0 < op.SH) (hSW : 0 < op.SW) :
    ∃ r, op.exec x = .ok r
      ∧ r.y.shape_dict .H = some ((h + 2 * op.PH + op.SH - op.KH - 1) / op.SH + 1)
      ∧ r.y.shape_dict .W = some ((w + 2 * op.PW + op.SW - op.KW - 1) / op.SW + 1) := by
  refine ⟨_, Pooling2D.exec_ok hN hH hW hC (ne_of_gt hSH) (ne_of_gt hSW), ?_, ?_⟩
  · exact shape_dict_of_map _ (lookup_zip_mem hH)
  · exact shape_dict_of_map _ (lookup_zip_mem hW)

/-- Witness for the amended C1 theorem at kernel 2, stride 2, padding 0,
H = 5, W = 7: output height 3 and width 4. -/
theorem pooling_out_spatial_size_w :
    ∃ r, (Pooling2D.mk (2, 2) (2, 2) (0, 0)).exec ⟨[1, 5, 7, 1], OrderNHWC⟩ = .ok r
      ∧ r.y.shape_dict .H = some 3 ∧ r.y.shape_dict .W = some 4 := by
  obtain ⟨r, hr, h1, h2⟩ := pooling_out_spatial_size (Pooling2D.mk (2, 2) (2, 2) (0, 0))
    ⟨[1, 5, 7, 1], OrderNHWC⟩ 1 5 7 1 rfl rfl rfl rfl (by decide) (by decide)
  exact ⟨r, hr, by rw [h1]; decide, by rw [h2]; decide⟩

/-- C2: after `exec` the output order equals the input order (the output
is built in canonical NHWC order and re-ordered via `change_order` to the
order of the input). -/
theorem pooling_preserves_order (op : Pooling2D) (x : Variable) (n h w c : Int)
    (hN : x.shape_dict .N = some n) (hH : x.shape_dict .H = some h)
    (hW : x.shape_dict .W = some w) (hC : x.shape_dict .C = some c)
    (hSH : op.SH ≠ 0) (hSW : op.SW ≠ 0) :
    ∃ r, op.exec x = .ok r ∧ r.y.order = x.order :=
  ⟨_, Pooling2D.exec_ok hN hH hW hC hSH hSW, rfl⟩

/-- Witness for C2 at a non-canonical input order (CHWN). -/
theorem pooling_preserves_order_w :
    ∃ r, (Pooling2D.mk (2, 2) (2, 2) (0, 0)).exec ⟨[3, 4, 6, 2], OrderCHWN⟩ = .ok r
      ∧ r.y.order = OrderCHWN := by
  obtain ⟨r, hr, ho⟩ := pooling_preserves_order (Pooling2D.mk (2, 2) (2, 2) (0, 0))
    ⟨[3, 4, 6, 2], OrderCHWN⟩ 2 4 6 3 rfl rfl rfl rfl (by decide) (by decide)
  exact ⟨r, hr, ho⟩

/-- C3: `exec` emits the edge-ignored warning exactly when
`(H + 2*PH - KH) % SH != 0` or `(W + 2*PW - KW) % SW != 0`, and the
warning is non-fatal: `exec` still returns the output. -/
theorem pooling_edge_warning_iff (op : Pooling2D) (x : Variable) (n h w c : Int)
    (hN : x.shape_dict .N = some n) (hH : x.shape_dict .H = some h)
    (hW : x.shape_dict .W = some w) (hC : x.shape_dict .C = some c)
    (hSH : 0 < op.SH) (hSW : 0 < op.SW) :
    ∃ r, op.exec x = .ok r
      ∧ (r.warned = true ↔
          ((h + 2 * op.PH - op.KH) % op.SH ≠ 0 ∨ (w + 2 * op.PW - op.KW) % op.SW ≠ 0)) := by
  refine ⟨_, Pooling2D.exec_ok hN hH hW hC (ne_of_gt hSH) (ne_of_gt hSW), ?_⟩
  simp

/-- Witness for C3: H = 5 triggers the warning ((5 - 2) % 2 = 1). -/
theorem pooling_edge_warning_iff_w :
    ∃ r, (Pooling2D.mk (2, 2) (2, 2) (0, 0)).exec ⟨[1, 5, 4, 1], OrderNHWC⟩ = .ok r
      ∧ (r.warned = true ↔
          ((5 + 2 * 0 - 2 : Int) % 2 ≠ 0 ∨ (4 + 2 * 0 - 2 : Int) % 2 ≠ 0)) := by
  obtain ⟨r, hr, hw⟩ := pooling_edge_warning_iff (Pooling2D.mk (2, 2) (2, 2) (0, 0))
    ⟨[1, 5, 4, 1], OrderNHWC⟩ 1 5 4 1 rfl rfl rfl rfl (by decide) (by decide)
  exact ⟨r, hr, hw⟩

/-- C5, counterexample: with H = W = 1, kernel 3, stride 1, padding 0 the
computed output height is -1, and `exec` returns the output with that
negative extent instead of failing with IncompatibleShapeError (no such
check exists in `exec`, and the `Variable` constructor checks only the
rank). -/
theorem pooling_nonpositive_extent_cex :
    ((Pooling2D.mk (3, 3) (1, 1) (0, 0)).exec ⟨[1, 1, 1, 1], OrderNHWC⟩).map
        (fun r => r.y.shape_dict Axis.H) = .ok (some (-1)) :=
  rfl

/-- C5, amended: `exec` performs no check on the computed output extents:
even when the computed output height is non-positive it returns the output
`Variable` carrying that extent (the arithmetic itself never fails for
positive strides, but no IncompatibleShapeError is ever raised). -/
theorem pooling_nonpositive_extent_ok (op : Pooling2D) (x : Variable) (n h w c : Int)
    (hN : x.shape_dict .N = some n) (hH : x.shape_dict .H = some h)
    (hW : x.shape_dict .W = some w) (hC : x.shape_dict .C = some c)
    (hSH : 0 < op.SH) (hSW : 0 < op.SW)
    (hneg : (h + 2 * op.PH + op.SH - op.KH - 1) / op.SH + 1 ≤ 0) :
    ∃ r, op.exec x = .ok r
      ∧ r.y.shape_dict .H = some ((h + 2 * op.PH + op.SH - op.KH - 1) / op.SH + 1)
      ∧ (h + 2 * op.PH + op.SH - op.KH - 1) / op.SH + 1 ≤ 0 := by
  refine ⟨_, Pooling2D.exec_ok hN hH hW hC (ne_of_gt hSH) (ne_of_gt hSW), ?_, hneg⟩
  exact shape_dict_of_map _ (lookup_zip_mem hH)

/-- Witness for the amended C5 theorem: kernel 3, stride 1, padding 0 on a
1x1 input yields height -1 and `exec` still succeeds. -/
theorem pooling_nonpositive_extent_ok_w :
    ∃ r, (Pooling2D.mk (3, 3) (1, 1) (0, 0)).exec ⟨[1, 1, 1, 1], OrderNHWC⟩ = .ok r
      ∧ r.y.shape_dict .H = some (-1) ∧ (-1 : Int) ≤ 0 := by
  obtain ⟨r, hr, h1, h2⟩ := pooling_nonpositive_extent_ok (Pooling2D.mk (3, 3) (1, 1) (0, 0))
    ⟨[1, 1, 1, 1], OrderNHWC⟩ 1 1 1 1 rfl rfl rfl rfl (by decide) (by decide) (by decide)
  exact ⟨r, hr, by rw [h1]; decide, by decide⟩

/-- C6: after `exec` the operator carries exactly one `Tensorwise`
attribute scoped to each axis of the input order other than H and W, and
none scoped to H or to W. -/
theorem pooling_tensorwise_axes (op : Pooling2D) (x : Variable) (n h w c : Int)
    (hN : x.shape_dict .N = some n) (hH : x.shape_dict .H = some h)
    (hW : x.shape_dict .W = some w) (hC : x.shape_dict .C = some c)
    (hSH : op.SH ≠ 0) (hSW : op.SW ≠ 0) (hnd : x.order.Nodup) :
    ∃ r, op.exec x = .ok r
      ∧ (∀ a ∈ x.order, a ≠ Axis.H → a ≠ Axis.W → r.tensorwiseAxes.count a = 1)
      ∧ r.tensorwiseAxes.count Axis.H = 0
      ∧ r.tensorwiseAxes.count Axis.W = 0 := by
  refine ⟨_, Pooling2D.exec_ok hN hH hW hC hSH hSW, ?_, ?_, ?_⟩
  · intro a ha haH haW
    have hp : (fun b : Axis => !(b == Axis.H || b == Axis.W)) a = true := by
      simp [haH, haW]
    exact List.count_eq_one_of_mem (hnd.filter _) (List.mem_filter.mpr ⟨ha, hp⟩)
  · dsimp only
    rw [List.count_eq_zero]
    intro hmem
    have := List.of_mem_filter hmem
    simp at this
  · dsimp only
    rw [List.count_eq_zero]
    intro hmem
    have := List.of_mem_filter hmem
    simp at this

/-- Witness for C6 at input order CHWN: one attribute for C, one for N,
none for H or W. -/
theorem pooling_tensorwise_axes_w :
    ∃ r, (Pooling2D.mk (2, 2) (2, 2) (0, 0)).exec ⟨[3, 4, 6, 2], OrderCHWN⟩ = .ok r
      ∧ (∀ a ∈ OrderCHWN, a ≠ Axis.H → a ≠ Axis.W → r.tensorwiseAxes.count a = 1)
      ∧ r.tensorwiseAxes.count Axis.H = 0
      ∧ r.tensorwiseAxes.count Axis.W = 0 := by
  obtain ⟨r, hr, h1, h2, h3⟩ := pooling_tensorwise_axes (Pooling2D.mk (2, 2) (2, 2) (0, 0))
    ⟨[3, 4, 6, 2], OrderCHWN⟩ 2 4 6 3 rfl rfl rfl rfl (by decide) (by decide) (by decide)
  exact ⟨r, hr, h1, h2, h3⟩

/-- C7: batch and channel sizes pass through unchanged, for any physical
input order. -/
theorem pooling_batch_channel_pass (op : Pooling2D) (x : Variable) (n h w c : Int)
    (hN : x.shape_dict .N = some n) (hH : x.shape_dict .H = some h)
    (hW : x.shape_dict .W = some w) (hC : x.shape_dict .C = some c)
    (hSH : op.SH ≠ 0) (hSW : op.SW ≠ 0) :
    ∃ r, op.exec x = .ok r
      ∧ r.y.shape_dict .N = x.shape_dict .N
      ∧ r.y.shape_dict .C = x.shape_dict .C := by
  refine ⟨_, Pooling2D.exec_ok hN hH hW hC hSH hSW, ?_, ?_⟩
  · rw [hN]
    exact shape_dict_of_map _ (lookup_zip_mem hN)
  · rw [hC]
    exact shape_dict_of_map _ (lookup_zip_mem hC)

/-- Witness for C7 at input order HWCN with N = 2, C = 3. -/
theorem pooling_batch_channel_pass_w :
    ∃ r, (Pooling2D.mk (2, 2) (2, 2) (0, 0)).exec ⟨[4, 6, 3, 2], OrderHWCN⟩ = .ok r
      ∧ r.y.shape_dict .N = (Variable.mk [4, 6, 3, 2] OrderHWCN).shape_dict .N
      ∧ r.y.shape_dict .C = (Variable.mk [4, 6, 3, 2] OrderHWCN).shape_dict .C := by
  obtain ⟨r, hr, h1, h2⟩ := pooling_batch_channel_pass (Pooling2D.mk (2, 2) (2, 2) (0, 0))
    ⟨[4, 6, 3, 2], OrderHWCN⟩ 2 4 6 3 rfl rfl rfl rfl (by decide) (by decide)
  exact ⟨r, hr, h1, h2⟩

/-- C10: given the `Variable` rank invariant and nonzero strides, `exec`
succeeds (returning exactly one output) precisely when the input order
contains all of N, H, W, C; when any of them is missing, `exec` fails at
the shape_dict lookup and no output is produced. -/
theorem pooling_exec_requires_axes (op : Pooling2D) (x : Variable)
    (hlen : x.shape.length = x.order.length)
    (hSH : op.SH ≠ 0) (hSW : op.SW ≠ 0) :
    (Axis.N ∈ x.order ∧ Axis.H ∈ x.order ∧ Axis.W ∈ x.order ∧ Axis.C ∈ x.order) ↔
      ∃ r, op.exec x = .ok r := by
  constructor
  · rintro ⟨hmN, hmH, hmW, hmC⟩
    obtain ⟨n, hn⟩ := lookup_zip_isSome hlen.symm hmN
    obtain ⟨h, hh⟩ := lookup_zip_isSome hlen.symm hmH
    obtain ⟨w, hw⟩ := lookup_zip_isSome hlen.symm hmW
    obtain ⟨c, hc⟩ := lookup_zip_isSome hlen.symm hmC
    exact ⟨_, Pooling2D.exec_ok hn hh hw hc hSH hSW⟩
  · rintro ⟨r, hr⟩
    simp only [Pooling2D.exec] at hr
    cases hn : x.shape_dict Axis.N with
    | none => simp only [hn] at hr; exact Except.noConfusion hr
    | some n =>
      cases hh : x.shape_dict Axis.H with
      | none => simp only [hn, hh] at hr; exact Except.noConfusion hr
      | some h =>
        cases hw : x.shape_dict Axis.W with
        | none => simp only [hn, hh, hw, if_neg hSH] at hr; exact Except.noConfusion hr
        | some w =>
          cases hc : x.shape_dict Axis.C with
          | none =>
            simp only [hn, hh, hw, hc, if_neg hSH, if_neg hSW] at hr
            exact Except.noConfusion hr
          | some c =>
            exact ⟨lookup_zip_mem hn, lookup_zip_mem hh, lookup_zip_mem hw, lookup_zip_mem hc⟩

/-- Witness for C10: a full NHWC input succeeds, and for an input whose
order lacks C the right-to-left direction shows no axis set containing all
four can be found, hence exec cannot succeed on it. -/
theorem pooling_exec_requires_axes_w :
    (∃ r, (Pooling2D.mk (2, 2) (2, 2) (0, 0)).exec ⟨[1, 4, 4, 1], OrderNHWC⟩ = .ok r)
    ∧ ¬∃ r, (Pooling2D.mk (2, 2) (2, 2) (0, 0)).exec ⟨[1, 4, 4], [Axis.N, Axis.H, Axis.W]⟩
        = .ok r := by
  constructor
  · exact (pooling_exec_requires_axes (Pooling2D.mk (2, 2) (2, 2) (0, 0))
      ⟨[1, 4, 4, 1], OrderNHWC⟩ (by decide) (by decide) (by decide)).mp (by decide)
  · intro hex
    have := (pooling_exec_requires_axes (Pooling2D.mk (2, 2) (2, 2) (0, 0))
      ⟨[1, 4, 4], [Axis.N, Axis.H, Axis.W]⟩ (by decide) (by decide) (by decide)).mpr hex
    exact absurd this.2.2.2 (by decide)

/-- C9: for a `Variable` satisfying the rank and distinctness invariants,
`change_order` to any order over the same axis set followed by
`change_order` back to the original order restores the original shape and
order exactly; and `change_order` to an order over a different axis set
fails with AxisSetMismatchError. -/
theorem change_order_roundtrip (v : Variable) (o1 : List Axis)
    (hlen : v.shape.length = v.order.length) (hnd : v.order.Nodup)
    (hset : sameAxisSet v.order o1 = true) :
    (∃ v1, v.change_order o1 = .ok v1 ∧ v1.change_order v.order = .ok v)
    ∧ ∀ o2 : List Axis, sameAxisSet v.order o2 = false →
        v.change_order o2 = .error "AxisSetMismatchError" := by
  constructor
  · refine ⟨⟨o1.map (fun b => (v.shape_dict b).getD 0), o1⟩, ?_, ?_⟩
    · rw [Variable.change_order, if_pos hset]
    · rw [Variable.change_order, if_pos (sameAxisSet_symm hset)]
      refine congrArg Except.ok ?_
      have h1 : v.order.map (fun a =>
            ((Variable.mk (o1.map fun b => (v.shape_dict b).getD 0) o1).shape_dict a).getD 0)
          = v.order.map (fun a => (v.shape_dict a).getD 0) := by
        apply List.map_congr_left
        intro a ha
        rw [shape_dict_of_map _ ((sameAxisSet_iff.mp hset a).mp ha)]
        rfl
      have h2 : v.order.map (fun a => (v.shape_dict a).getD 0) = v.shape :=
        map_lookup_zip_self hnd hlen.symm
      calc (Variable.mk
              (v.order.map (fun a =>
                ((Variable.mk (o1.map fun b => (v.shape_dict b).getD 0) o1).shape_dict a).getD 0))
              v.order)
          = Variable.mk (v.order.map (fun a => (v.shape_dict a).getD 0)) v.order := by rw [h1]
        _ = Variable.mk v.shape v.order := by rw [h2]
        _ = v := rfl
  · intro o2 h2
    rw [Variable.change_order, if_neg]
    simp [h2]

/-- Witness for C9: the round trip NHWC to CHWN and back on shape
[1, 2, 3, 4], plus the mismatch failure against the order [N]. -/
theorem change_order_roundtrip_w :
    (∃ v1, (Variable.mk [1, 2, 3, 4] OrderNHWC).change_order OrderCHWN = .ok v1
        ∧ v1.change_order OrderNHWC = .ok (Variable.mk [1, 2, 3, 4] OrderNHWC))
    ∧ (Variable.mk [1, 2, 3, 4] OrderNHWC).change_order [Axis.N]
        = .error "AxisSetMismatchError" := by
  have h := change_order_roundtrip (Variable.mk [1, 2, 3, 4] OrderNHWC) OrderCHWN
    (by decide) (by decide) (by decide)
  exact ⟨h.1, h.2 [Axis.N] (by decide)⟩

/-- C4, counterexample: constructing `Pooling2D` with kernel size 0,
stride 0 and padding -1 succeeds and simply stores the normalized tuples;
no InvalidParameterError is raised. -/
theorem pooling_init_no_validation_cex :
    Pooling2D.init (.int 0) (.int 0) (.int (-1))
      = .ok ⟨(0, 0), (0, 0), (-1, -1)⟩ :=
  rfl

/-- C4, amended: `Pooling2D.__init__` performs no parameter validation:
for every ksize, stride and padding argument (including zero or negative
kernel or stride and negative padding) construction succeeds, storing the
`to_tuple`-normalized parameters, and no InvalidParameterError exists at
construction time. -/
theorem pooling_init_no_validation (ksize stride padding : IntOrTuple) :
    Pooling2D.init ksize stride padding
      = .ok ⟨to_tuple ksize, to_tuple stride, to_tuple padding⟩ :=
  rfl

/-- C8: the five literal deconvolution scenarios (normal, large stride,
no padding, projection, fully-connected) each produce the expected
logical output sizes per axis for all 36 combinations of data order and
weight order over the six permutations, with the output order equal to
the data input order; the spatial arithmetic is
`out = (in - 1) * stride - 2 * pad + kernel`. -/
theorem deconv_scenarios :
    deconvScenarioOK (3, 3) 1 1 2 3 4 6 5 2 3 4 5 = true
    ∧ deconvScenarioOK (3, 3) 2 1 2 3 4 6 3 2 5 7 3 = true
    ∧ deconvScenarioOK (3, 3) 1 0 2 3 5 6 3 2 5 7 3 = true
    ∧ deconvScenarioOK (1, 1) 1 0 2 5 7 6 3 2 5 7 3 = true
    ∧ deconvScenarioOK (5, 7) 1 0 2 1 1 6 3 2 5 7 3 = true :=
  ⟨rfl, rfl, rfl, rfl, rfl⟩
